import Mathlib

/-!
Verification of `shared/validate.js` from `serverless-scaleway-functions`.

The module validates a serverless deployment descriptor: credentials,
namespace environment variables, function/container definitions, handler
file existence and event triggers (cron schedules).  Everything below is a
shallow embedding of that JavaScript source into Lean: JS objects become
structures or association lists (which preserve the insertion order that JS
string-keyed objects guarantee), thrown exceptions become `Except.error`,
and the local filesystem is a parameter `fs : String → Bool` giving the
result of `fs.existsSync(path.resolve('./', p))`.
-/

namespace SlsValidate

/-! ### JS string splitting

`String.prototype.split` with a single-character separator, modelled
structurally on the character list.  `"".split(sep) = [""]`,
`"a..b".split('.') = ["a", "", "b"]`, exactly as in JS. -/

def splitOnChar (sep : Char) : List Char → List (List Char)
  | [] => [[]]
  | c :: cs =>
    if c = sep then [] :: splitOnChar sep cs
    else
      match splitOnChar sep cs with
      | f :: rest => (c :: f) :: rest
      | [] => [[c]]

def jsSplit (sep : Char) (s : String) : List String :=
  (splitOnChar sep s.data).map (fun cs => String.mk cs)

/-! ### The cron schedule regex (source line 16)

```
/^(\*|([0-9]|1[0-9]|2[0-9]|3[0-9]|4[0-9]|5[0-9])|\*\/([0-9]|...|5[0-9]))
  (\*|([0-9]|1[0-9]|2[0-3])|\*\/([0-9]|1[0-9]|2[0-3]))
  (\*|([1-9]|1[0-9]|2[0-9]|3[0-1])|\*\/([1-9]|1[0-9]|2[0-9]|3[0-1]))
  (\*|([1-9]|1[0-2])|\*\/([1-9]|1[0-2]))
  (\*|([0-6])|\*\/([0-6]))$/
```

The anchored pattern is five field patterns joined by single literal
spaces.  No field alternative can match a space or an empty string, so the
whole regex matches `s` iff splitting `s` on single spaces yields exactly
five fields, each matching its field pattern.  Character classes `[lo-hi]`
are codepoint ranges (`Char` order is codepoint order). -/

def inCC (lo hi c : Char) : Bool :=
  decide (lo.toNat ≤ c.toNat) && decide (c.toNat ≤ hi.toNat)

/-- Minute number: `[0-9]|1[0-9]|2[0-9]|3[0-9]|4[0-9]|5[0-9]`. -/
def minuteNum : List Char → Bool
  | [c] => inCC '0' '9' c
  | [c1, c2] =>
    (c1 == '1' || c1 == '2' || c1 == '3' || c1 == '4' || c1 == '5') && inCC '0' '9' c2
  | _ => false

/-- Hour number: `[0-9]|1[0-9]|2[0-3]`. -/
def hourNum : List Char → Bool
  | [c] => inCC '0' '9' c
  | [c1, c2] => (c1 == '1' && inCC '0' '9' c2) || (c1 == '2' && inCC '0' '3' c2)
  | _ => false

/-- Day-of-month number: `[1-9]|1[0-9]|2[0-9]|3[0-1]`. -/
def domNum : List Char → Bool
  | [c] => inCC '1' '9' c
  | [c1, c2] =>
    ((c1 == '1' || c1 == '2') && inCC '0' '9' c2) || (c1 == '3' && inCC '0' '1' c2)
  | _ => false

/-- Month number: `[1-9]|1[0-2]`. -/
def monthNum : List Char → Bool
  | [c] => inCC '1' '9' c
  | [c1, c2] => c1 == '1' && inCC '0' '2' c2
  | _ => false

/-- Day-of-week number: `[0-6]`. -/
def dowNum : List Char → Bool
  | [c] => inCC '0' '6' c
  | _ => false

/-- One field pattern: star, a bare number, or star-slash-number. -/
def cronField (num : List Char → Bool) (s : String) : Bool :=
  match s.data with
  | ['*'] => true
  | '*' :: '/' :: rest => num rest
  | cs => num cs

def cronFieldsTest : List String → Bool
  | [f1, f2, f3, f4, f5] =>
    cronField minuteNum f1 && cronField hourNum f2 && cronField domNum f3 &&
      cronField monthNum f4 && cronField dowNum f5
  | _ => false

/-- `cronScheduleRegex.test rate` (source line 16). -/
def cronScheduleRegexTest (s : String) : Bool :=
  cronFieldsTest (jsSplit ' ' s)

/-! ### Triggers (source lines 20-26 and 165-192) -/

/-- The payload of a trigger: the only field ever read is `rate`
(`TRIGGERS_VALIDATION.schedule`), absent in JS means `undefined`. -/
structure ScheduleTrigger where
  rate : Option String
deriving DecidableEq

/-- `TRIGGERS_VALIDATION.schedule` (source lines 21-25): throws unless
`trigger.rate` is truthy (present and non-empty) and matches the regex.
JS renders an `undefined` rate as the string "undefined" inside the
template literal of the thrown message. -/
def scheduleValidate (trigger : ScheduleTrigger) : Except String Unit :=
  let rateStr := match trigger.rate with
    | none => "undefined"
    | some s => s
  let rateTruthy := match trigger.rate with
    | none => false
    | some s => !(s == "")
  if !rateTruthy || !cronScheduleRegexTest rateStr then
    Except.error ("Trigger Schedule is invalid: " ++ rateStr ++
      ", schedule should be formatted like a UNIX-Compliant Cronjob, for example: \x271 * * * *\x27")
  else
    Except.ok ()

/-- A JS trigger object: its keys with their payloads, in insertion order.
Only `schedule` payloads are ever validated, so every payload is carried as
a `ScheduleTrigger`. -/
abbrev Trigger := List (String × ScheduleTrigger)

/-- The registry `TRIGGERS_VALIDATION` (source line 20). -/
def TRIGGERS_VALIDATION : List (String × (ScheduleTrigger → Except String Unit)) :=
  [("schedule", scheduleValidate)]

/-- The body of the `reduce` in `validateTriggers` (source lines 167-191):
one key required, the key must be registered, then the kind-specific
validator runs under a `try` whose caught message is appended. -/
def triggerStep (accumulator : List String) (trigger : Trigger) : List String :=
  match trigger.map Prod.fst with
  | [triggerName] =>
    let authorizedTriggers := TRIGGERS_VALIDATION.map Prod.fst
    if !(authorizedTriggers.contains triggerName) then
      accumulator ++ ["Trigger Type " ++ triggerName ++
        " is not currently supported by Scaleway\x27s Serverless platform, supported types are the following: " ++
        String.intercalate ", " authorizedTriggers]
    else
      match TRIGGERS_VALIDATION.lookup triggerName with
      | some validator =>
        match validator ((trigger.lookup triggerName).getD { rate := none }) with
        | Except.ok _ => accumulator
        | Except.error e => accumulator ++ [e]
      | none => accumulator
  | _ =>
    accumulator ++
      ["Trigger is invalid, it should contain at least one event type configuration (example: schedule)."]

/-- `validateTriggers` (source lines 165-192): a `reduce` starting from
`[]`, appending for each trigger either nothing or one message. -/
def validateTriggers (triggers : List Trigger) : List String :=
  triggers.foldl triggerStep []

/-! ### Runtimes and applications (source lines 7-14 and 74-163) -/

/-- `RUNTIMES_EXTENSIONS` (source lines 7-14), as an insertion-ordered
association list, the order `Object.keys` reports. -/
def RUNTIMES_EXTENSIONS : List (String × List String) :=
  [("node8", ["ts", "js"]), ("node10", ["ts", "js"]), ("node14", ["ts", "js"]),
    ("python", ["py"]), ("python3", ["py"]), ("golang", ["go"])]

/-- `Object.keys(RUNTIMES_EXTENSIONS).join(', ')`. -/
def availableRuntimesMessage : String :=
  String.intercalate ", " (RUNTIMES_EXTENSIONS.map Prod.fst)

/-- The unsupported-runtime message (source lines 90 and 105); both sites
interpolate `this.runtime`, the service-level default runtime. -/
def runtimeNotSupportedMsg (runtime : String) : String :=
  "Runtime " ++ runtime ++
    " is not supported. Function runtime must be one of the following: " ++
    availableRuntimesMessage

/-- A function entry of `serverless.service.functions`. `runtime` is the
optional per-function override; `events` is absent (`undefined`) or a list
of triggers. -/
structure FunctionSpec where
  runtime : Option String
  handler : String
  events : Option (List Trigger)
deriving DecidableEq

structure ContainerSpec where
  events : Option (List Trigger)
deriving DecidableEq

/-- The parts of `serverless.service` read by `validateApplications`:
`functions` (JS object in insertion order; `undefined` and `{}` behave
identically so both are the empty list) and `custom.containers` (`none`
when `custom` or `custom.containers` is absent). -/
structure ServiceConfig where
  functions : List (String × FunctionSpec)
  containers : Option (List (String × ContainerSpec))
deriving DecidableEq

/-- The golang skip (source line 96):
`func.runtime === 'golang' || (!func.runtime && this.runtime === 'golang')`.
JS truthiness: an absent override and an empty-string override are both
falsy. -/
def golangEffective (runtime : String) (func : FunctionSpec) : Bool :=
  func.runtime == some "golang" ||
    ((func.runtime == none || func.runtime == some "") && runtime == "golang")

/-- The runtime-override check (source lines 101-107): only for a truthy
`func.runtime`; an unrecognized override pushes a message interpolating
`this.runtime` (the default), not the override itself. -/
def overrideRuntimeErrors (runtime : String) (func : FunctionSpec) : List String :=
  match func.runtime with
  | none => []
  | some r =>
    if r == "" then []
    else
      match RUNTIMES_EXTENSIONS.lookup r with
      | none => [runtimeNotSupportedMsg runtime]
      | some _ => []

/-- The message pushed by the handler `catch` (source line 133). -/
def handlerErrorMessage (functionName handler : String) : String :=
  "Handler file defined for function " ++ functionName ++ " does not exist (" ++
    handler ++ ")."

/-- The `try` block of the handler check (source lines 110-131).
`extensions` is the binding from source line 87 (the default runtime's
list); when the default runtime is unknown it is `undefined` and the loop
condition `i < extensions.length` throws a `TypeError`, modelled by the
`none` branch.  `fs p` models `fs.existsSync(path.resolve('./', p))`. -/
def handlerTry (fs : String → Bool) (extensions : Option (List String))
    (functionName handler : String) : Except String Unit :=
  let splitHandlerPath := jsSplit '.' handler
  if splitHandlerPath.length != 2 then
    Except.error ("Handler is malformatted for " ++ functionName ++
      ": handler should be path/to/file.functionInsideFile")
  else
    let handlerPath := splitHandlerPath.headD ""
    match extensions with
    | none => Except.error "TypeError: extensions is undefined"
    | some exts =>
      let handlerFileExists :=
        exts.foldl (fun acc extension => acc || fs (handlerPath ++ "." ++ extension)) false
      if handlerFileExists then Except.ok ()
      else Except.error "File does not exists"

/-- The whole guarded handler check: any throw inside the `try` is caught
and replaced by the single aggregated message (source lines 132-135). -/
def handlerCheck (fs : String → Bool) (extensions : Option (List String))
    (functionName handler : String) : List String :=
  match handlerTry fs extensions functionName handler with
  | Except.ok _ => []
  | Except.error _ => [handlerErrorMessage functionName handler]

/-- The body of the per-function `forEach` (source lines 93-140): the pair
of messages pushed for this function and the (possibly mutated) function.
The golang skip returns before any check and before the `events`
defaulting. -/
def processFunction (fs : String → Bool) (runtime : String)
    (extensions : Option (List String)) (functionName : String)
    (func : FunctionSpec) : List String × FunctionSpec :=
  if golangEffective runtime func then ([], func)
  else
    let events := func.events.getD []
    (overrideRuntimeErrors runtime func ++
        handlerCheck fs extensions functionName func.handler ++
        validateTriggers events,
      { func with events := some events })

/-- One iteration of the function `forEach`, threading the pushed messages
and the mutated function list. -/
def functionsStep (fs : String → Bool) (runtime : String)
    (extensions : Option (List String))
    (acc : List String × List (String × FunctionSpec))
    (nf : String × FunctionSpec) : List String × List (String × FunctionSpec) :=
  (acc.1 ++ (processFunction fs runtime extensions nf.1 nf.2).1,
    acc.2 ++ [(nf.1, (processFunction fs runtime extensions nf.1 nf.2).2)])

/-- One iteration of the container `forEach` (source lines 151-155):
`events` is defaulted, then the triggers are validated. -/
def containersStep (acc : List String × List (String × ContainerSpec))
    (nc : String × ContainerSpec) : List String × List (String × ContainerSpec) :=
  (acc.1 ++ validateTriggers (nc.2.events.getD []),
    acc.2 ++ [(nc.1, ({ events := some (nc.2.events.getD []) } : ContainerSpec))])

/-- `validateApplications` (source lines 74-163): returns
`currentErrors.concat(functionErrors)` together with the configuration
after its `events` mutations. -/
def validateApplications (fs : String → Bool) (runtime : String)
    (service : ServiceConfig) (errors : List String) :
    List String × ServiceConfig :=
  let currentErrors := errors
  let functionResult :=
    if service.functions.isEmpty then ([], service.functions)
    else
      let extensions := RUNTIMES_EXTENSIONS.lookup runtime
      let defaultRuntimeErrors :=
        if extensions.isNone then [runtimeNotSupportedMsg runtime] else []
      let folded := service.functions.foldl (functionsStep fs runtime extensions) ([], [])
      (defaultRuntimeErrors ++ folded.1, folded.2)
  let containerResult :=
    match service.containers with
    | none => ([], none)
    | some cs =>
      if cs.isEmpty then ([], some cs)
      else
        let folded := cs.foldl containersStep ([], [])
        (folded.1, some folded.2)
  let emptyErrors :=
    if service.functions.isEmpty &&
        (match service.containers with | none => true | some cs => cs.isEmpty) then
      ["You must define at least one function or container to deploy under the functions or custom key."]
    else []
  (currentErrors ++ (functionResult.1 ++ containerResult.1 ++ emptyErrors),
    { functions := if service.functions.isEmpty then service.functions else functionResult.2,
      containers := containerResult.2 })

/-! ### Environment variables, credentials, pipeline
(source lines 29-72 and 194-212) -/

/-- A JS value stored under an environment-variable key: a string, or
anything whose `typeof` is not `'string'`. -/
inductive EnvValue where
  | str (s : String)
  | nonString
deriving DecidableEq

/-- The `variables` argument of `validateEnv` when truthy: a string-keyed
object in insertion order, or a truthy non-object value.  All falsy JS
values (`undefined`, `null`, ...) take the early-return branch and are
modelled by `none` at the call sites. -/
inductive EnvInput where
  | map (entries : List (String × EnvValue))
  | nonObject
deriving DecidableEq

/-- One iteration of the per-entry `forEach` of `validateEnv` (source
lines 203-209). -/
def envStep (errors : List String) (entry : String × EnvValue) : List String :=
  match entry.2 with
  | EnvValue.str _ => errors
  | EnvValue.nonString =>
    errors ++ ["Variable " ++ entry.1 ++
      ": variable is invalid, environment variables may only be strings"]

/-- `validateEnv` (source lines 194-212). -/
def validateEnv : Option EnvInput → Except String (List String)
  | none => Except.ok []
  | some EnvInput.nonObject =>
    Except.error "Environment variables should be a map of strings under the form: key - value"
  | some (EnvInput.map entries) =>
    Except.ok (entries.foldl envStep [])

/-- `validateCredentials` (source lines 46-54): thrown message on a length
mismatch of either credential. -/
def validateCredentials (scwToken scwProject : String) : Except String Unit :=
  if scwToken.length != 36 || scwProject.length != 36 then
    Except.error ("Either \"scwToken\" or \"scwProject\" is invalid." ++
      " Credentials to deploy on your Scaleway Account are required, please read the documentation.")
  else Except.ok ()

/-- `checkErrors` (source lines 56-63). -/
def checkErrors (errors : List String) : Except (List String) Unit :=
  if errors.isEmpty then Except.ok () else Except.error errors

/-- How the pipeline `validate()` (source lines 29-36) can fail: a thrown
precondition error, or the rejected list of aggregated messages. -/
inductive PipelineFailure where
  | fatal (message : String)
  | aggregated (errors : List String)
deriving DecidableEq

/-- The promise chain `validate()` (source lines 29-36): service path,
credentials and a non-object environment throw (fatal); `validateNamespace`
starts from `[]` (its `errors` argument is `undefined`), concatenates the
env errors, `validateApplications` appends its own, and `checkErrors`
rejects with the whole list iff it is non-empty. -/
def validate (fs : String → Bool) (servicePath : Bool)
    (scwToken scwProject : String) (runtime : String) (env : Option EnvInput)
    (service : ServiceConfig) : Except PipelineFailure ServiceConfig :=
  if !servicePath then
    Except.error (PipelineFailure.fatal "This command can only be run inside a service directory")
  else
    match validateCredentials scwToken scwProject with
    | Except.error e => Except.error (PipelineFailure.fatal e)
    | Except.ok _ =>
      match validateEnv env with
      | Except.error e => Except.error (PipelineFailure.fatal e)
      | Except.ok namespaceErrors =>
        let result := validateApplications fs runtime service namespaceErrors
        match checkErrors result.1 with
        | Except.ok _ => Except.ok result.2
        | Except.error es => Except.error (PipelineFailure.aggregated es)

/-! ### Spec-side definitions

These follow the wording of the specification (not the source) and are
compared against the source embeddings above. -/

/-- Spec wording for one cron field: `*`, a number `n` with
`lo ≤ n ≤ hi`, or the step form — a star, a slash, then such a number. -/
def specField (lo hi : Nat) (s : String) : Prop :=
  s = "*" ∨ (∃ n, lo ≤ n ∧ n ≤ hi ∧ s = Nat.repr n) ∨
    (∃ n, lo ≤ n ∧ n ≤ hi ∧ s = "*/" ++ Nat.repr n)

/-- Spec wording: five fields — minute `[0-59]`, hour `[0-23]`,
day-of-month `[1-31]`, month `[1-12]`, day-of-week `[0-6]`. -/
def specCronFields : List String → Prop
  | [f1, f2, f3, f4, f5] =>
    specField 0 59 f1 ∧ specField 0 23 f2 ∧ specField 1 31 f3 ∧
      specField 1 12 f4 ∧ specField 0 6 f5
  | _ => False

/-- Spec wording for the whole grammar: fields separated by single
spaces. -/
def specCronOk (s : String) : Prop :=
  specCronFields (jsSplit ' ' s)

/-- Spec wording for the report of one trigger (used to state the order
and the one-message-per-bad-trigger property of `validateTriggers`). -/
def triggerReport (trigger : Trigger) : List String :=
  match trigger.map Prod.fst with
  | [k] =>
    if k = "schedule" then
      match scheduleValidate ((trigger.lookup k).getD { rate := none }) with
      | Except.ok _ => []
      | Except.error e => [e]
    else
      ["Trigger Type " ++ k ++
        " is not currently supported by Scaleway\x27s Serverless platform, supported types are the following: schedule"]
  | _ =>
    ["Trigger is invalid, it should contain at least one event type configuration (example: schedule)."]

/-- Spec wording for the report of one environment entry. -/
def envEntryReport (entry : String × EnvValue) : List String :=
  match entry.2 with
  | EnvValue.str _ => []
  | EnvValue.nonString =>
    ["Variable " ++ entry.1 ++
      ": variable is invalid, environment variables may only be strings"]

/-- Spec-side restatement of the error list of `validateApplications`, in
which every handler probe receives the extension list of the service-level
default runtime, bound once before the per-function loop. -/
def applicationsErrorsSpec (fs : String → Bool) (runtime : String)
    (service : ServiceConfig) : List String :=
  (if service.functions.isEmpty then []
    else
      (if (RUNTIMES_EXTENSIONS.lookup runtime).isNone then [runtimeNotSupportedMsg runtime] else []) ++
        service.functions.flatMap (fun nf =>
          if golangEffective runtime nf.2 then []
          else
            overrideRuntimeErrors runtime nf.2 ++
              handlerCheck fs (RUNTIMES_EXTENSIONS.lookup runtime) nf.1 nf.2.handler ++
              validateTriggers (nf.2.events.getD []))) ++
    (match service.containers with
      | none => []
      | some cs => cs.flatMap (fun nc => validateTriggers (nc.2.events.getD []))) ++
    (if service.functions.isEmpty &&
        (match service.containers with | none => true | some cs => cs.isEmpty) then
      ["You must define at least one function or container to deploy under the functions or custom key."]
    else [])

/-- Decimal digit characters. -/
def digitChar (d : Nat) : Char := Char.ofNat (48 + d)

end SlsValidate

namespace SlsValidate

-- Concrete sanity checks of the embedded regex and splitter.
example : cronScheduleRegexTest "1 * * * *" = true := by decide
example : cronScheduleRegexTest "*/5 0 1 1 0" = true := by decide
example : cronScheduleRegexTest "60 * * * *" = false := by decide
example : cronScheduleRegexTest "* * * *" = false := by decide
example : cronScheduleRegexTest "* 24 * * *" = false := by decide
example : cronScheduleRegexTest "59 23 31 12 6" = true := by decide
example : cronScheduleRegexTest "1  * * * *" = false := by decide
example : jsSplit '.' "path.to.file.handler" = ["path", "to", "file", "handler"] := by decide
example : jsSplit '.' "" = [""] := by decide

/-! ### Digits, decimal numerals and the character classes -/

theorem inCC_elim {lo hi c : Char} (h : inCC lo hi c = true) :
    lo.toNat ≤ c.toNat ∧ c.toNat ≤ hi.toNat := by
  unfold inCC at h
  simp only [Bool.and_eq_true, decide_eq_true_eq] at h
  exact h

theorem char_eq_digitChar (c : Char) (h48 : 48 ≤ c.toNat) (h57 : c.toNat ≤ 57) :
    c = digitChar (c.toNat - 48) := by
  unfold digitChar
  conv_lhs => rw [← Char.ofNat_toNat c]
  congr 1
  omega

theorem repr_one : ∀ d, d ≤ 9 → (Nat.repr d).data = [digitChar d] := by decide

theorem repr_two : ∀ a, a ≤ 9 → ∀ b, b ≤ 9 → 1 ≤ a →
    (Nat.repr (10 * a + b)).data = [digitChar a, digitChar b] := by decide

theorem repr_head_ne_star : ∀ n, n ≤ 59 → (Nat.repr n).data.head? ≠ some '*' := by decide

theorem one_digit_elim {c cl ch : Char} (h : inCC cl ch c = true)
    (hcl : 48 ≤ cl.toNat) (hch : ch.toNat ≤ 57) :
    ∃ b, cl.toNat - 48 ≤ b ∧ b ≤ ch.toNat - 48 ∧ [c] = (Nat.repr b).data := by
  obtain ⟨g1, g2⟩ := inCC_elim h
  refine ⟨c.toNat - 48, by omega, by omega, ?_⟩
  rw [repr_one _ (by omega)]
  exact congrArg (fun x => [x]) (char_eq_digitChar c (by omega) (by omega))

theorem two_digit_elim {c2 cl ch : Char} (a : Nat) (ha1 : 1 ≤ a) (ha9 : a ≤ 9)
    (h : inCC cl ch c2 = true) (hcl : 48 ≤ cl.toNat) (hch : ch.toNat ≤ 57) :
    ∃ b, cl.toNat - 48 ≤ b ∧ b ≤ ch.toNat - 48 ∧
      [digitChar a, c2] = (Nat.repr (10 * a + b)).data := by
  obtain ⟨g1, g2⟩ := inCC_elim h
  refine ⟨c2.toNat - 48, by omega, by omega, ?_⟩
  rw [repr_two a ha9 _ (by omega) ha1]
  exact congrArg (fun x => [digitChar a, x]) (char_eq_digitChar c2 (by omega) (by omega))

/-! ### The numeric alternatives, field by field -/

theorem minuteNum_repr : ∀ n, n ≤ 59 → minuteNum (Nat.repr n).data = true := by decide

theorem hourNum_repr : ∀ n, n ≤ 23 → hourNum (Nat.repr n).data = true := by decide

theorem domNum_repr : ∀ n, n ≤ 31 → 1 ≤ n → domNum (Nat.repr n).data = true := by decide

theorem monthNum_repr : ∀ n, n ≤ 12 → 1 ≤ n → monthNum (Nat.repr n).data = true := by decide

theorem dowNum_repr : ∀ n, n ≤ 6 → dowNum (Nat.repr n).data = true := by decide

theorem minuteNum_iff : ∀ cs, minuteNum cs = true ↔
    ∃ n, 0 ≤ n ∧ n ≤ 59 ∧ cs = (Nat.repr n).data := by
  intro cs
  have e0 : Char.toNat '0' = 48 := by decide
  have e9 : Char.toNat '9' = 57 := by decide
  constructor
  · intro h
    rcases cs with _ | ⟨c1, _ | ⟨c2, _ | ⟨c3, rest⟩⟩⟩
    · simp [minuteNum] at h
    · simp only [minuteNum] at h
      obtain ⟨b, hb1, hb2, hdata⟩ := one_digit_elim h (by omega) (by omega)
      exact ⟨b, by omega, by omega, hdata⟩
    · simp only [minuteNum, Bool.and_eq_true, Bool.or_eq_true, beq_iff_eq] at h
      obtain ⟨h1, h2⟩ := h
      rcases h1 with (((h1 | h1) | h1) | h1) | h1 <;> subst h1
      · rw [show ('1' : Char) = digitChar 1 from by decide]
        obtain ⟨b, hb1, hb2, hd⟩ := two_digit_elim 1 (by omega) (by omega) h2 (by omega) (by omega)
        exact ⟨10 * 1 + b, by omega, by omega, hd⟩
      · rw [show ('2' : Char) = digitChar 2 from by decide]
        obtain ⟨b, hb1, hb2, hd⟩ := two_digit_elim 2 (by omega) (by omega) h2 (by omega) (by omega)
        exact ⟨10 * 2 + b, by omega, by omega, hd⟩
      · rw [show ('3' : Char) = digitChar 3 from by decide]
        obtain ⟨b, hb1, hb2, hd⟩ := two_digit_elim 3 (by omega) (by omega) h2 (by omega) (by omega)
        exact ⟨10 * 3 + b, by omega, by omega, hd⟩
      · rw [show ('4' : Char) = digitChar 4 from by decide]
        obtain ⟨b, hb1, hb2, hd⟩ := two_digit_elim 4 (by omega) (by omega) h2 (by omega) (by omega)
        exact ⟨10 * 4 + b, by omega, by omega, hd⟩
      · rw [show ('5' : Char) = digitChar 5 from by decide]
        obtain ⟨b, hb1, hb2, hd⟩ := two_digit_elim 5 (by omega) (by omega) h2 (by omega) (by omega)
        exact ⟨10 * 5 + b, by omega, by omega, hd⟩
    · simp [minuteNum] at h
  · rintro ⟨n, -, hn2, rfl⟩
    exact minuteNum_repr n hn2

theorem hourNum_iff : ∀ cs, hourNum cs = true ↔
    ∃ n, 0 ≤ n ∧ n ≤ 23 ∧ cs = (Nat.repr n).data := by
  intro cs
  have e0 : Char.toNat '0' = 48 := by decide
  have e3 : Char.toNat '3' = 51 := by decide
  have e9 : Char.toNat '9' = 57 := by decide
  constructor
  · intro h
    rcases cs with _ | ⟨c1, _ | ⟨c2, _ | ⟨c3, rest⟩⟩⟩
    · simp [hourNum] at h
    · simp only [hourNum] at h
      obtain ⟨b, hb1, hb2, hdata⟩ := one_digit_elim h (by omega) (by omega)
      exact ⟨b, by omega, by omega, hdata⟩
    · simp only [hourNum, Bool.and_eq_true, Bool.or_eq_true, beq_iff_eq] at h
      rcases h with ⟨h1, h2⟩ | ⟨h1, h2⟩ <;> subst h1
      · rw [show ('1' : Char) = digitChar 1 from by decide]
        obtain ⟨b, hb1, hb2, hd⟩ := two_digit_elim 1 (by omega) (by omega) h2 (by omega) (by omega)
        exact ⟨10 * 1 + b, by omega, by omega, hd⟩
      · rw [show ('2' : Char) = digitChar 2 from by decide]
        obtain ⟨b, hb1, hb2, hd⟩ := two_digit_elim 2 (by omega) (by omega) h2 (by omega) (by omega)
        exact ⟨10 * 2 + b, by omega, by omega, hd⟩
    · simp [hourNum] at h
  · rintro ⟨n, -, hn2, rfl⟩
    exact hourNum_repr n hn2

theorem domNum_iff : ∀ cs, domNum cs = true ↔
    ∃ n, 1 ≤ n ∧ n ≤ 31 ∧ cs = (Nat.repr n).data := by
  intro cs
  have e0 : Char.toNat '0' = 48 := by decide
  have e1 : Char.toNat '1' = 49 := by decide
  have e9 : Char.toNat '9' = 57 := by decide
  constructor
  · intro h
    rcases cs with _ | ⟨c1, _ | ⟨c2, _ | ⟨c3, rest⟩⟩⟩
    · simp [domNum] at h
    · simp only [domNum] at h
      obtain ⟨b, hb1, hb2, hdata⟩ := one_digit_elim h (by omega) (by omega)
      exact ⟨b, by omega, by omega, hdata⟩
    · simp only [domNum, Bool.and_eq_true, Bool.or_eq_true, beq_iff_eq] at h
      rcases h with ⟨h1 | h1, h2⟩ | ⟨h1, h2⟩ <;> subst h1
      · rw [show ('1' : Char) = digitChar 1 from by decide]
        obtain ⟨b, hb1, hb2, hd⟩ := two_digit_elim 1 (by omega) (by omega) h2 (by omega) (by omega)
        exact ⟨10 * 1 + b, by omega, by omega, hd⟩
      · rw [show ('2' : Char) = digitChar 2 from by decide]
        obtain ⟨b, hb1, hb2, hd⟩ := two_digit_elim 2 (by omega) (by omega) h2 (by omega) (by omega)
        exact ⟨10 * 2 + b, by omega, by omega, hd⟩
      · rw [show ('3' : Char) = digitChar 3 from by decide]
        obtain ⟨b, hb1, hb2, hd⟩ := two_digit_elim 3 (by omega) (by omega) h2 (by omega) (by omega)
        exact ⟨10 * 3 + b, by omega, by omega, hd⟩
    · simp [domNum] at h
  · rintro ⟨n, hn1, hn2, rfl⟩
    exact domNum_repr n hn2 hn1

theorem monthNum_iff : ∀ cs, monthNum cs = true ↔
    ∃ n, 1 ≤ n ∧ n ≤ 12 ∧ cs = (Nat.repr n).data := by
  intro cs
  have e0 : Char.toNat '0' = 48 := by decide
  have e1 : Char.toNat '1' = 49 := by decide
  have e2 : Char.toNat '2' = 50 := by decide
  have e9 : Char.toNat '9' = 57 := by decide
  constructor
  · intro h
    rcases cs with _ | ⟨c1, _ | ⟨c2, _ | ⟨c3, rest⟩⟩⟩
    · simp [monthNum] at h
    · simp only [monthNum] at h
      obtain ⟨b, hb1, hb2, hdata⟩ := one_digit_elim h (by omega) (by omega)
      exact ⟨b, by omega, by omega, hdata⟩
    · simp only [monthNum, Bool.and_eq_true, beq_iff_eq] at h
      obtain ⟨h1, h2⟩ := h
      subst h1
      rw [show ('1' : Char) = digitChar 1 from by decide]
      obtain ⟨b, hb1, hb2, hd⟩ := two_digit_elim 1 (by omega) (by omega) h2 (by omega) (by omega)
      exact ⟨10 * 1 + b, by omega, by omega, hd⟩
    · simp [monthNum] at h
  · rintro ⟨n, hn1, hn2, rfl⟩
    exact monthNum_repr n hn2 hn1

theorem dowNum_iff : ∀ cs, dowNum cs = true ↔
    ∃ n, 0 ≤ n ∧ n ≤ 6 ∧ cs = (Nat.repr n).data := by
  intro cs
  have e0 : Char.toNat '0' = 48 := by decide
  have e6 : Char.toNat '6' = 54 := by decide
  constructor
  · intro h
    rcases cs with _ | ⟨c1, _ | ⟨c2, _ | ⟨c3, rest⟩⟩⟩
    · simp [dowNum] at h
    · simp only [dowNum] at h
      obtain ⟨b, hb1, hb2, hdata⟩ := one_digit_elim h (by omega) (by omega)
      exact ⟨b, by omega, by omega, hdata⟩
    · simp [dowNum] at h
    · simp [dowNum] at h
  · rintro ⟨n, -, hn2, rfl⟩
    exact dowNum_repr n hn2

/-! ### Field patterns against the spec grammar -/

theorem cronField_iff (num : List Char → Bool) (lo hi : Nat) (hhi : hi ≤ 59)
    (hnum : ∀ cs, num cs = true ↔ ∃ n, lo ≤ n ∧ n ≤ hi ∧ cs = (Nat.repr n).data) :
    ∀ s : String, cronField num s = true ↔ specField lo hi s := by
  intro s
  have hstar : ("*" : String).data = ['*'] := by decide
  have hstep : ("*/" : String).data = ['*', '/'] := by decide
  unfold cronField specField
  split
  next x heq =>
    constructor
    · intro _
      exact Or.inl (String.ext (by rw [heq, hstar]))
    · intro _
      rfl
  next x rest heq =>
    constructor
    · intro h
      obtain ⟨n, hn1, hn2, hr⟩ := (hnum rest).1 h
      refine Or.inr (Or.inr ⟨n, hn1, hn2, String.ext ?_⟩)
      rw [heq, String.data_append, hstep, hr]
      rfl
    · intro hs
      rcases hs with h1 | ⟨n, hn1, hn2, h2⟩ | ⟨n, hn1, hn2, h3⟩
      · rw [h1, hstar] at heq
        simp at heq
      · rw [h2] at heq
        have hhead := repr_head_ne_star n (by omega)
        rw [heq] at hhead
        simp at hhead
      · rw [h3, String.data_append, hstep] at heq
        simp only [List.cons_append, List.nil_append, List.cons.injEq, true_and] at heq
        exact (hnum rest).2 ⟨n, hn1, hn2, heq.symm⟩
  next x h1 h2 =>
    constructor
    · intro h
      obtain ⟨n, hn1, hn2, hr⟩ := (hnum s.data).1 h
      exact Or.inr (Or.inl ⟨n, hn1, hn2, String.ext hr⟩)
    · intro hs
      rcases hs with hstar2 | ⟨n, hn1, hn2, hrepr⟩ | ⟨n, hn1, hn2, hstep2⟩
      · exact absurd (by rw [hstar2, hstar]) (fun hh => h1 hh)
      · exact (hnum s.data).2 ⟨n, hn1, hn2, by rw [hrepr]⟩
      · refine absurd ?_ (fun hh => h2 (Nat.repr n).data hh)
        rw [hstep2, String.data_append, hstep]
        rfl

theorem cronFieldsTest_iff : ∀ l, cronFieldsTest l = true ↔ specCronFields l := by
  intro l
  have hm := cronField_iff minuteNum 0 59 (by omega) minuteNum_iff
  have hh := cronField_iff hourNum 0 23 (by omega) hourNum_iff
  have hd := cronField_iff domNum 1 31 (by omega) domNum_iff
  have hmo := cronField_iff monthNum 1 12 (by omega) monthNum_iff
  have hw := cronField_iff dowNum 0 6 (by omega) dowNum_iff
  rcases l with _ | ⟨f1, _ | ⟨f2, _ | ⟨f3, _ | ⟨f4, _ | ⟨f5, _ | ⟨f6, rest⟩⟩⟩⟩⟩⟩ <;>
    simp [cronFieldsTest, specCronFields, Bool.and_eq_true, hm, hh, hd, hmo, hw,
      and_assoc]

/-- The source regex test agrees exactly with the five-field grammar the
specification describes. -/
theorem cronScheduleRegexTest_iff (s : String) :
    cronScheduleRegexTest s = true ↔ specCronOk s :=
  cronFieldsTest_iff (jsSplit ' ' s)

/-! ### Folds as flat maps -/

theorem foldl_step_flatMap {α β : Type _} (g : List β → α → List β)
    (f : α → List β) (hg : ∀ acc x, g acc x = acc ++ f x) :
    ∀ (l : List α) (acc : List β), l.foldl g acc = acc ++ l.flatMap f := by
  intro l
  induction l with
  | nil => intro acc; simp
  | cons x xs ih =>
    intro acc
    rw [List.foldl_cons, hg, ih]
    simp

theorem foldl_pair_step {α β γ : Type _} (g : List β × List γ → α → List β × List γ)
    (f : α → List β) (k : α → γ)
    (hg : ∀ acc x, g acc x = (acc.1 ++ f x, acc.2 ++ [k x])) :
    ∀ (l : List α) (acc : List β × List γ),
      l.foldl g acc = (acc.1 ++ l.flatMap f, acc.2 ++ l.map k) := by
  intro l
  induction l with
  | nil => intro acc; simp
  | cons x xs ih =>
    intro acc
    rw [List.foldl_cons, hg, ih]
    simp

theorem foldl_or_eq_any {α : Type _} (p : α → Bool) :
    ∀ (l : List α) (b : Bool),
      l.foldl (fun acc x => acc || p x) b = (b || l.any p) := by
  intro l
  induction l with
  | nil => intro b; simp
  | cons x xs ih =>
    intro b
    rw [List.foldl_cons, ih]
    simp [Bool.or_assoc]

/-! ### validateTriggers as a flat map of per-trigger reports -/

theorem triggerStep_eq (accumulator : List String) (trigger : Trigger) :
    triggerStep accumulator trigger = accumulator ++ triggerReport trigger := by
  unfold triggerStep triggerReport
  cases htk : trigger.map Prod.fst with
  | nil => rfl
  | cons k rest =>
    cases rest with
    | nil =>
      by_cases hk : k = "schedule"
      · subst hk
        simp only [TRIGGERS_VALIDATION]
        norm_num [List.contains, List.lookup]
        cases hv : scheduleValidate ((trigger.lookup "schedule").getD { rate := none }) <;> simp
      · have hc : (List.map Prod.fst TRIGGERS_VALIDATION).contains k = false := by
          simp [TRIGGERS_VALIDATION, List.contains, hk]
        simp only [hc, Bool.not_false, if_pos, if_neg, hk, ite_false]
        have hi : String.intercalate ", " (List.map Prod.fst TRIGGERS_VALIDATION) = "schedule" := by
          decide
        rw [hi, List.append_cancel_left_eq, List.cons_eq_cons]
        refine ⟨?_, rfl⟩
        rw [String.append_assoc]
        exact congrArg (fun x => "Trigger Type " ++ k ++ x) (by decide)
    | cons k2 rest2 => rfl

theorem validateTriggers_eq (ts : List Trigger) :
    validateTriggers ts = ts.flatMap triggerReport := by
  unfold validateTriggers
  rw [foldl_step_flatMap triggerStep triggerReport triggerStep_eq ts]
  simp

/-! ### validateApplications, characterized -/

theorem processFunction_fst (fs : String → Bool) (runtime : String)
    (exts : Option (List String)) (functionName : String) (func : FunctionSpec) :
    (processFunction fs runtime exts functionName func).1 =
      if golangEffective runtime func then []
      else
        overrideRuntimeErrors runtime func ++
          handlerCheck fs exts functionName func.handler ++
          validateTriggers (func.events.getD []) := by
  unfold processFunction
  by_cases h : golangEffective runtime func <;> simp [h]

theorem processFunction_snd (fs : String → Bool) (runtime : String)
    (exts : Option (List String)) (functionName : String) (func : FunctionSpec) :
    (processFunction fs runtime exts functionName func).2 =
      if golangEffective runtime func then func
      else { func with events := some (func.events.getD []) } := by
  unfold processFunction
  by_cases h : golangEffective runtime func <;> simp [h]

theorem functions_foldl_eq (fs : String → Bool) (runtime : String)
    (l : List (String × FunctionSpec)) :
    l.foldl (functionsStep fs runtime (RUNTIMES_EXTENSIONS.lookup runtime)) ([], []) =
      (l.flatMap (fun nf =>
          if golangEffective runtime nf.2 then []
          else
            overrideRuntimeErrors runtime nf.2 ++
              handlerCheck fs (RUNTIMES_EXTENSIONS.lookup runtime) nf.1 nf.2.handler ++
              validateTriggers (nf.2.events.getD [])),
        l.map (fun nf =>
          if golangEffective runtime nf.2 then nf
          else (nf.1, { nf.2 with events := some (nf.2.events.getD []) }))) := by
  rw [foldl_pair_step (functionsStep fs runtime (RUNTIMES_EXTENSIONS.lookup runtime))
    (fun nf => (processFunction fs runtime (RUNTIMES_EXTENSIONS.lookup runtime) nf.1 nf.2).1)
    (fun nf => (nf.1, (processFunction fs runtime (RUNTIMES_EXTENSIONS.lookup runtime) nf.1 nf.2).2))
    (fun acc x => rfl) l ([], [])]
  simp only [List.nil_append]
  refine Prod.ext ?_ ?_
  · simp only [processFunction_fst]
  · simp only [processFunction_snd]
    simp [apply_ite, Prod.mk.eta]

theorem containers_foldl_eq (l : List (String × ContainerSpec)) :
    l.foldl containersStep ([], []) =
      (l.flatMap (fun nc => validateTriggers (nc.2.events.getD [])),
        l.map (fun nc => (nc.1, ({ events := some (nc.2.events.getD []) } : ContainerSpec)))) := by
  rw [foldl_pair_step containersStep
    (fun nc => validateTriggers (nc.2.events.getD []))
    (fun nc => (nc.1, ({ events := some (nc.2.events.getD []) } : ContainerSpec)))
    (fun acc x => rfl) l ([], [])]
  simp

/-- The whole of `validateApplications`: the error list is the incoming
errors followed by the per-phase reports (every handler probe receiving the
default runtime's extension list), and the returned configuration defaults
`events` exactly on the non-golang functions and on every container. -/
theorem validateApplications_eq (fs : String → Bool) (runtime : String)
    (service : ServiceConfig) (errors : List String) :
    validateApplications fs runtime service errors =
      (errors ++ applicationsErrorsSpec fs runtime service,
        { functions := service.functions.map (fun nf =>
            if golangEffective runtime nf.2 then nf
            else (nf.1, { nf.2 with events := some (nf.2.events.getD []) })),
          containers := service.containers.map (fun cs => cs.map (fun nc =>
            (nc.1, ({ events := some (nc.2.events.getD []) } : ContainerSpec)))) }) := by
  rcases service with ⟨fns, cnts⟩
  simp only [validateApplications, applicationsErrorsSpec, functions_foldl_eq fs runtime,
    containers_foldl_eq]
  by_cases hfe : fns.isEmpty
  · obtain rfl := List.isEmpty_iff.mp hfe
    rcases cnts with _ | cs
    · simp
    · by_cases hce : cs.isEmpty
      · obtain rfl := List.isEmpty_iff.mp hce
        simp
      · simp [hce]
  · rcases cnts with _ | cs
    · simp [hfe]
    · by_cases hce : cs.isEmpty
      · obtain rfl := List.isEmpty_iff.mp hce
        simp [hfe]
      · simp [hfe, hce]

/-! ### The claims -/

/-- C1: the schedule validator succeeds exactly when the payload carries a
`rate` matching the five-field cron grammar (minute 0-59, hour 0-23,
day-of-month 1-31, month 1-12, day-of-week 0-6; each field a star, a
number, or a star-slash-number step, single spaces between fields); a
present-but-invalid rate is rejected with a message that contains the
offending rate string, and a missing rate is rejected as well. -/
theorem C1_schedule_validator (t : ScheduleTrigger) :
    (scheduleValidate t = Except.ok () ↔ ∃ s, t.rate = some s ∧ specCronOk s)
  ∧ (∀ s, t.rate = some s → ¬ specCronOk s →
      ∃ a b, scheduleValidate t = Except.error (a ++ (s ++ b)))
  ∧ (t.rate = none → ∃ e, scheduleValidate t = Except.error e) := by
  rcases t with ⟨_ | s⟩
  · refine ⟨?_, ?_, ?_⟩
    · constructor
      · intro h
        exact absurd h (by simp [scheduleValidate])
      · rintro ⟨s, hs, -⟩
        exact Option.noConfusion hs
    · intro s hs
      exact absurd hs (by simp)
    · intro _
      exact ⟨_, rfl⟩
  · refine ⟨?_, ?_, ?_⟩
    · constructor
      · intro h
        refine ⟨s, rfl, (cronScheduleRegexTest_iff s).mp ?_⟩
        cases hb : cronScheduleRegexTest s
        · exact absurd h (by simp [scheduleValidate, hb])
        · rfl
      · rintro ⟨s', hs', hcron⟩
        have h0 : s = s' := by injection hs'
        subst h0
        have hc : cronScheduleRegexTest s = true := (cronScheduleRegexTest_iff s).mpr hcron
        have hne : (s == "") = false := by
          cases hb : s == ""
          · rfl
          · obtain rfl : s = "" := by simpa using hb
            exact absurd hc (by decide)
        simp [scheduleValidate, hc, hne]
    · intro s' hs' hcron
      have h0 : s = s' := by injection hs'
      subst h0
      have hc : cronScheduleRegexTest s = false := by
        cases hb : cronScheduleRegexTest s
        · rfl
        · exact absurd ((cronScheduleRegexTest_iff s).mp hb) hcron
      refine ⟨"Trigger Schedule is invalid: ",
        ", schedule should be formatted like a UNIX-Compliant Cronjob, for example: \x271 * * * *\x27", ?_⟩
      simp only [scheduleValidate, hc, Bool.not_false, Bool.or_true, if_true]
      rw [String.append_assoc]
    · intro hs
      exact absurd hs (by simp)

theorem C1_schedule_validator_witness :
    ∃ e, scheduleValidate { rate := none } = Except.error e :=
  (C1_schedule_validator { rate := none }).2.2 rfl

/-- C2: `validateTriggers` concatenates, in sequence order, one report per
trigger: the exactly-one-key message when the payload has zero or several
keys, the unsupported-kind message (naming the kind and listing the only
supported kind `schedule`) when the single key is unregistered, and for a
`schedule` trigger exactly the message the schedule validator raised (never
propagated), or nothing when it passes. -/
theorem C2_validateTriggers (ts : List Trigger) :
    validateTriggers ts = ts.flatMap triggerReport
  ∧ (∀ t : Trigger, (t.map Prod.fst).length ≠ 1 →
      triggerReport t =
        ["Trigger is invalid, it should contain at least one event type configuration (example: schedule)."])
  ∧ (∀ (t : Trigger) (k : String), t.map Prod.fst = [k] → k ≠ "schedule" →
      triggerReport t =
        ["Trigger Type " ++ k ++
          " is not currently supported by Scaleway\x27s Serverless platform, supported types are the following: schedule"])
  ∧ (∀ p : ScheduleTrigger,
      triggerReport [("schedule", p)] =
        match scheduleValidate p with
        | Except.ok _ => []
        | Except.error e => [e]) := by
  refine ⟨validateTriggers_eq ts, ?_, ?_, ?_⟩
  · intro t h
    unfold triggerReport
    cases htk : t.map Prod.fst with
    | nil => rfl
    | cons k rest =>
      cases rest with
      | nil => exact absurd (by rw [htk]; rfl) h
      | cons k2 rest2 => rfl
  · intro t k htk hk
    unfold triggerReport
    rw [htk]
    simp [hk]
  · intro p
    unfold triggerReport
    simp [List.lookup]

theorem C2_validateTriggers_witness :
    triggerReport [("http", { rate := none })] =
      ["Trigger Type " ++ "http" ++
        " is not currently supported by Scaleway\x27s Serverless platform, supported types are the following: schedule"] :=
  (C2_validateTriggers []).2.2.1 [("http", { rate := none })] "http" rfl (by decide)

/-- C3: the handler check fails (with the single aggregated message naming
the function and its handler) whenever the handler does not split on dots
into exactly two segments, regardless of the filesystem; with exactly two
segments and an extension list it succeeds iff some extension yields an
existing file `filePath.ext`; and it always returns either no message or
exactly that one message — nothing escapes. -/
theorem C3_handler_resolution (fs : String → Bool) (exts : Option (List String))
    (functionName handler : String) :
    ((jsSplit '.' handler).length ≠ 2 →
      handlerCheck fs exts functionName handler = [handlerErrorMessage functionName handler])
  ∧ (∀ l, exts = some l → (jsSplit '.' handler).length = 2 →
      (handlerCheck fs exts functionName handler = [] ↔
        ∃ ext ∈ l, fs ((jsSplit '.' handler).headD "" ++ "." ++ ext) = true))
  ∧ (handlerCheck fs exts functionName handler = [] ∨
      handlerCheck fs exts functionName handler = [handlerErrorMessage functionName handler]) := by
  refine ⟨?_, ?_, ?_⟩
  · intro h
    simp only [handlerCheck, handlerTry]
    rw [if_pos (by simpa using h)]
  · rintro l rfl h2
    simp only [handlerCheck, handlerTry]
    rw [if_neg (by simp [h2]), foldl_or_eq_any]
    simp only [Bool.false_or]
    cases hb : l.any (fun extension => fs ((jsSplit '.' handler).headD "" ++ "." ++ extension)) with
    | false =>
      constructor
      · intro hh
        exact absurd hh (by simp)
      · intro he
        have hx := List.any_eq_true.mpr he
        rw [hx] at hb
        exact Bool.noConfusion hb
    | true =>
      exact ⟨fun _ => List.any_eq_true.mp hb, fun _ => rfl⟩
  · simp only [handlerCheck]
    cases handlerTry fs exts functionName handler with
    | ok u => left; rfl
    | error e => right; rfl

theorem C3_handler_resolution_witness :
    handlerCheck (fun _ => false) (some ["js", "ts"]) "f" "path.to.file.handler" =
      [handlerErrorMessage "f" "path.to.file.handler"] :=
  (C3_handler_resolution (fun _ => false) (some ["js", "ts"]) "f" "path.to.file.handler").1
    (by decide)

/-- C4: a function whose effective runtime is golang (its own override, or
the service default when it has no override) is skipped wholesale: no
message of any kind is produced for it and the function is left untouched,
however malformed its handler is. -/
theorem C4_golang_skip (fs : String → Bool) (runtime : String)
    (exts : Option (List String)) (functionName : String) (func : FunctionSpec)
    (h : func.runtime = some "golang" ∨ (func.runtime = none ∧ runtime = "golang")) :
    processFunction fs runtime exts functionName func = ([], func) := by
  have hg : golangEffective runtime func = true := by
    rcases h with h | ⟨h1, h2⟩ <;> simp [golangEffective, *]
  unfold processFunction
  rw [if_pos hg]

theorem C4_golang_skip_witness :
    processFunction (fun _ => false) "node10" (some ["ts", "js"]) "badfn"
        { runtime := some "golang", handler := "not-a-dotted-handler", events := none } =
      ([], { runtime := some "golang", handler := "not-a-dotted-handler", events := none }) :=
  C4_golang_skip (fun _ => false) "node10" (some ["ts", "js"]) "badfn"
    { runtime := some "golang", handler := "not-a-dotted-handler", events := none }
    (Or.inl rfl)

/-- C5: a non-golang function declaring an unrecognized runtime override
gets an unsupported-runtime message as its first report, and that message
interpolates the service default runtime (not the override) before the list
of all supported runtime keys. -/
theorem C5_override_runtime_message (fs : String → Bool) (runtime : String)
    (exts : Option (List String)) (functionName : String) (func : FunctionSpec)
    (r : String) (hr : func.runtime = some r) (hrg : r ≠ "golang") (hre : r ≠ "")
    (hlook : RUNTIMES_EXTENSIONS.lookup r = none) :
    (∃ rest, (processFunction fs runtime exts functionName func).1 =
        runtimeNotSupportedMsg runtime :: rest)
  ∧ runtimeNotSupportedMsg runtime =
      "Runtime " ++ runtime ++
        " is not supported. Function runtime must be one of the following: node8, node10, node14, python, python3, golang" := by
  constructor
  · have hg : golangEffective runtime func = false := by
      simp [golangEffective, hr, hrg, hre]
    rw [processFunction_fst, if_neg (by simp [hg])]
    have ho : overrideRuntimeErrors runtime func = [runtimeNotSupportedMsg runtime] := by
      unfold overrideRuntimeErrors
      rw [hr]
      simp only [hlook]
      rw [if_neg (by simp [hre])]
    rw [ho]
    exact ⟨handlerCheck fs exts functionName func.handler ++
      validateTriggers (func.events.getD []), by simp⟩
  · unfold runtimeNotSupportedMsg
    rw [String.append_assoc]
    exact congrArg (fun x => "Runtime " ++ runtime ++ x) (by decide)

theorem C5_override_runtime_message_witness :
    (∃ rest, (processFunction (fun _ => false) "node10" (some ["ts", "js"]) "f"
        { runtime := some "ruby", handler := "a.b", events := none }).1 =
        runtimeNotSupportedMsg "node10" :: rest)
  ∧ runtimeNotSupportedMsg "node10" =
      "Runtime " ++ "node10" ++
        " is not supported. Function runtime must be one of the following: node8, node10, node14, python, python3, golang" :=
  C5_override_runtime_message (fun _ => false) "node10" (some ["ts", "js"]) "f"
    { runtime := some "ruby", handler := "a.b", events := none } "ruby"
    rfl (by decide) (by decide) (by decide)

/-- C6: the credential check throws (a fatal pipeline failure, never an
aggregated one) exactly when the token or the project id does not have
length 36, whatever the characters are; and with sound preconditions the
pipeline fails with precisely the aggregated namespace-plus-applications
error list when it is non-empty, succeeding otherwise. -/
theorem C6_credentials_and_aggregation :
    (∀ scwToken scwProject : String,
      (∃ e, validateCredentials scwToken scwProject = Except.error e) ↔
        (scwToken.length ≠ 36 ∨ scwProject.length ≠ 36))
  ∧ (∀ (fs : String → Bool) (scwToken scwProject runtime : String)
      (env : Option EnvInput) (service : ServiceConfig),
      scwToken.length ≠ 36 ∨ scwProject.length ≠ 36 →
      validate fs true scwToken scwProject runtime env service =
        Except.error (PipelineFailure.fatal
          ("Either \"scwToken\" or \"scwProject\" is invalid." ++
            " Credentials to deploy on your Scaleway Account are required, please read the documentation.")))
  ∧ (∀ (fs : String → Bool) (scwToken scwProject runtime : String)
      (env : Option EnvInput) (service : ServiceConfig) (l : List String),
      scwToken.length = 36 → scwProject.length = 36 → validateEnv env = Except.ok l →
      validate fs true scwToken scwProject runtime env service =
        if (validateApplications fs runtime service l).1 = []
        then Except.ok (validateApplications fs runtime service l).2
        else Except.error
          (PipelineFailure.aggregated (validateApplications fs runtime service l).1)) := by
  refine ⟨?_, ?_, ?_⟩
  · intro scwToken scwProject
    by_cases h1 : scwToken.length = 36 <;> by_cases h2 : scwProject.length = 36 <;>
      simp [validateCredentials, h1, h2]
  · intro fs scwToken scwProject runtime env service h
    have hcred : validateCredentials scwToken scwProject =
        Except.error ("Either \"scwToken\" or \"scwProject\" is invalid." ++
          " Credentials to deploy on your Scaleway Account are required, please read the documentation.") := by
      simp only [validateCredentials]
      rw [if_pos (by rcases h with h | h <;> simp [h])]
    simp [validate, hcred]
  · intro fs scwToken scwProject runtime env service l h1 h2 henv
    have hcred : validateCredentials scwToken scwProject = Except.ok () := by
      simp [validateCredentials, h1, h2]
    simp only [validate, hcred, henv, Bool.not_true, Bool.false_eq_true, if_false]
    cases hres : (validateApplications fs runtime service l).1 with
    | nil => simp [checkErrors]
    | cons e es => simp [checkErrors]

theorem C6_credentials_and_aggregation_witness :
    validate (fun _ => false) true
        "aaaaaaaaaaaaaaaaaaaaaaaaaaaaaaaaaaaa" "bbbbbbbbbbbbbbbbbbbbbbbbbbbbbbbbbbbb"
        "node10" none { functions := [], containers := none } =
      if (validateApplications (fun _ => false) "node10"
            { functions := [], containers := none } []).1 = []
      then Except.ok (validateApplications (fun _ => false) "node10"
            { functions := [], containers := none } []).2
      else Except.error (PipelineFailure.aggregated
        (validateApplications (fun _ => false) "node10"
          { functions := [], containers := none } []).1) :=
  C6_credentials_and_aggregation.2.2 (fun _ => false)
    "aaaaaaaaaaaaaaaaaaaaaaaaaaaaaaaaaaaa" "bbbbbbbbbbbbbbbbbbbbbbbbbbbbbbbbbbbb"
    "node10" none { functions := [], containers := none } [] (by decide) (by decide) rfl

/-- C7: `validateEnv` returns no error for an absent input, throws for a
(truthy) non-mapping input, and for a mapping returns exactly one
"Variable name: ..." message per non-string entry, in the mapping's
insertion order. -/
theorem C7_validateEnv :
    validateEnv none = Except.ok []
  ∧ validateEnv (some EnvInput.nonObject) =
      Except.error "Environment variables should be a map of strings under the form: key - value"
  ∧ (∀ entries, validateEnv (some (EnvInput.map entries)) =
      Except.ok (entries.flatMap envEntryReport))
  ∧ (∀ name : String, envEntryReport (name, EnvValue.nonString) =
      ["Variable " ++ name ++ ": variable is invalid, environment variables may only be strings"])
  ∧ (∀ (name s : String), envEntryReport (name, EnvValue.str s) = []) := by
  refine ⟨rfl, rfl, ?_, fun name => rfl, fun name s => rfl⟩
  intro entries
  simp only [validateEnv]
  have hstep : ∀ acc x, envStep acc x = acc ++ envEntryReport x := by
    intro acc x
    unfold envStep envEntryReport
    cases hx : x.2 <;> simp
  rw [foldl_step_flatMap envStep envEntryReport hstep entries]
  simp

/-- C8: with no functions and no containers, `validateApplications` adds
exactly one message — the must-define-something error — and leaves the
configuration untouched; in particular no default-runtime error appears. -/
theorem C8_empty_configuration (fs : String → Bool) (runtime : String)
    (service : ServiceConfig) (errors : List String)
    (hf : service.functions = [])
    (hc : service.containers = none ∨ service.containers = some []) :
    (validateApplications fs runtime service errors).1 =
      errors ++
        ["You must define at least one function or container to deploy under the functions or custom key."]
  ∧ (validateApplications fs runtime service errors).2 = service := by
  rw [validateApplications_eq]
  rcases service with ⟨fns, cnts⟩
  obtain rfl : fns = [] := hf
  rcases hc with hc | hc <;> obtain rfl := hc <;>
    exact ⟨by simp [applicationsErrorsSpec], by simp⟩

theorem C8_empty_configuration_witness :
    (validateApplications (fun _ => false) "unknownruntime"
        { functions := [], containers := none } []).1 =
      [] ++
        ["You must define at least one function or container to deploy under the functions or custom key."]
  ∧ (validateApplications (fun _ => false) "unknownruntime"
        { functions := [], containers := none } []).2 =
      { functions := [], containers := none } :=
  C8_empty_configuration (fun _ => false) "unknownruntime"
    { functions := [], containers := none } [] rfl (Or.inl rfl)

/-- C9 (counterexample to the claim as stated): after validation of a
configuration holding one golang function without `events`, that function
still has no `events` — the golang skip returns before the `events`
defaulting, so not every function leaves validation with `events`
populated. -/
theorem C9_golang_events_not_defaulted :
    ∃ nf ∈ (validateApplications (fun _ => false) "node10"
        { functions := [("fn", { runtime := some "golang", handler := "handler.go", events := none })],
          containers := none } []).2.functions,
      nf.2.events = none := by decide

/-- C9 (amended): validation never changes the configuration except that
`events` is set to the empty list on every function the golang rule does
not skip and on every container; golang-skipped functions are returned
untouched (their absent `events` stays absent). -/
theorem C9_events_defaulting (fs : String → Bool) (runtime : String)
    (service : ServiceConfig) (errors : List String) :
    (validateApplications fs runtime service errors).2 =
      { functions := service.functions.map (fun nf =>
          if golangEffective runtime nf.2 then nf
          else (nf.1, { nf.2 with events := some (nf.2.events.getD []) })),
        containers := service.containers.map (fun cs => cs.map (fun nc =>
          (nc.1, ({ events := some (nc.2.events.getD []) } : ContainerSpec)))) } := by
  rw [validateApplications_eq]

/-- C10: the error list of `validateApplications` is exactly the spec-side
restatement in which every handler probe receives the extension list of the
service default runtime (bound once, never the per-function override); and
when that lookup is `none` the guarded handler check reports the
handler-does-not-exist message for any handler on any filesystem. -/
theorem C10_default_runtime_extensions :
    (∀ (fs : String → Bool) (runtime : String) (service : ServiceConfig)
      (errors : List String),
      (validateApplications fs runtime service errors).1 =
        errors ++ applicationsErrorsSpec fs runtime service)
  ∧ (∀ (fs : String → Bool) (functionName handler : String),
      handlerCheck fs none functionName handler =
        [handlerErrorMessage functionName handler]) := by
  constructor
  · intro fs runtime service errors
    rw [validateApplications_eq]
  · intro fs functionName handler
    simp only [handlerCheck, handlerTry]
    cases hb : ((jsSplit '.' handler).length != 2) <;> rfl

end SlsValidate
